import Mathlib

/-
Verification of the client-side session and data-synchronization logic of the
JobHunter.Ai frontend. The definitions below are shallow embeddings of the
JavaScript source: the top-level App component (session restore, login/logout,
application-cache mutators, URL-parameter effects, render gating), the
OAuthCallback component, the API response wrapper, and the applications page
(filtering and the page-level update flow). Asynchronous effects are modelled
by explicit state passing; browser localStorage is modelled as a pair of
optional string slots; JavaScript string truthiness is modelled explicitly.
-/

namespace JobHunter

/-! ## Data model -/

/-- The authenticated identity held client-side: the `id`/`name`/`email`
fields the App and OAuthCallback components read from a fetched profile. -/
structure Identity where
  id : String
  name : String
  email : String
deriving DecidableEq

/-- The two persisted localStorage slots used by the app: the key
`auth_token` and the key `user` (a serialized identity). `none` models a
missing key (getItem returning null). -/
structure Storage where
  auth_token : Option String
  user : Option String
deriving DecidableEq

/-- JavaScript truthiness of a nullable string: null and the empty string
are falsy, every other string is truthy. -/
def truthy : Option String → Bool
  | none => false
  | some s => !(s == "")

/-- The parts of window.location the code inspects: the pathname and the
four reserved query parameters (`token`, `user_id`, `success`, `error`).
`none` models an absent parameter (URLSearchParams.get returning null). -/
structure Url where
  pathname : String
  token : Option String
  user_id : Option String
  success : Option String
  error : Option String
deriving DecidableEq

/-- The URL produced by history.replaceState to a bare path: the given
pathname and an empty query string. -/
def stripParams (path : String) : Url :=
  { pathname := path, token := none, user_id := none, success := none, error := none }

/-- A job-application record as held in the App applications state.
Timestamps are modelled as natural numbers (the instant that
`new Date().toISOString()` serializes); ids are the numbers produced by
`Date.now()` or assigned by the server. -/
structure ApplicationRecord where
  id : Nat
  company : String
  role : String
  status : String
  source : String
  created_at : Nat
  updated_at : Nat
deriving DecidableEq

/-- The top-level React state of the App component in src/unnamed/part_000:
currentPage, isAuthenticated, user, applications, error. -/
structure AppState where
  currentPage : String
  isAuthenticated : Bool
  user : Option Identity
  applications : List ApplicationRecord
  error : String
deriving DecidableEq

/-- The useState initial values of the App component: page dashboard, not
authenticated, no user, empty application list, empty error. -/
def initialState : AppState :=
  { currentPage := "dashboard", isAuthenticated := false, user := none,
    applications := [], error := "" }

/-! ## Session restore (src/unnamed/part_000 lines 21-48) -/

/-- Result of the mount-time restore effect: the possibly rewritten storage,
the resulting component state, and the user id for which an application load
was kicked off (the `if (userData.id) loadApplications(userData.id)` call). -/
structure RestoreResult where
  storage : Storage
  state : AppState
  loadedFor : Option String
deriving DecidableEq

/-- Shallow embedding of the restore useEffect of the App component
(src/unnamed/part_000 lines 21-48). `parse` stands for `JSON.parse`
applied to the persisted `user` value: `none` models a parse throw, which
the source catches (so the effect as a whole never throws) and answers by
removing both localStorage keys. When token and saved user are both truthy
and the saved user parses, the state becomes authenticated with that
identity, and the page is moved to profile when the URL carries an
email-connection callback marker. When the token or the saved user is
missing, nothing happens: storage is left as it is and the state keeps its
initial (unauthenticated) values. -/
def restore (parse : String → Option Identity) (st : Storage) (u : Url) : RestoreResult :=
  if truthy st.auth_token && truthy st.user then
    match parse (st.user.getD "") with
    | some userData =>
        let page :=
          if u.pathname == "/profile" || u.success == some "email_connected" || truthy u.error
          then "profile" else initialState.currentPage
        { storage := st,
          state := { initialState with
                      user := some userData, isAuthenticated := true, currentPage := page },
          loadedFor := if userData.id == "" then none else some userData.id }
    | none =>
        { storage := { auth_token := none, user := none }, state := initialState,
          loadedFor := none }
  else
    { storage := st, state := initialState, loadedFor := none }

/-! ## API wrapper (src/unnamed/part_004) -/

/-- The parsed JSON body of an error response: the `error` field read by
`error.error || 'Something went wrong'`. -/
structure ApiBody where
  error : Option String
deriving DecidableEq

/-- An HTTP response as seen by handleResponse: its status code and the
outcome of `response.json()` (`none` models a body that fails to parse, in
which case `await response.json()` itself throws). -/
structure Response where
  status : Nat
  body : Option ApiBody
deriving DecidableEq

/-- The fetch Response.ok flag: status in the range 200-299. -/
def Response.ok (r : Response) : Bool :=
  decide (200 ≤ r.status ∧ r.status < 300)

/-- JavaScript `a || b` on a nullable string: null and the empty string
fall through to the default. -/
def jsOr (o : Option String) (d : String) : String :=
  match o with
  | some s => if s == "" then d else s
  | none => d

/-- Outcome of a wrapped API call: the storage after the call, the value of
window.location.href, and the settled promise (ok body or thrown message). -/
structure ApiResult where
  storage : Storage
  location : String
  result : Except String ApiBody

/-- Shallow embedding of handleResponse (src/unnamed/part_004 lines 9-21).
On a non-ok response with status 401 it removes both localStorage keys and
sets window.location.href to /login before throwing; on any other non-ok
response it throws the error field of the body (or a generic message); on an
ok response it resolves with the parsed body. -/
def handleResponse (r : Response) (st : Storage) (loc : String) : ApiResult :=
  if !r.ok then
    let st2 := if r.status == 401 then ({ auth_token := none, user := none } : Storage) else st
    let loc2 := if r.status == 401 then "/login" else loc
    match r.body with
    | some b => { storage := st2, location := loc2, result := Except.error (jsOr b.error "Something went wrong") }
    | none => { storage := st2, location := loc2, result := Except.error "invalid json" }
  else
    match r.body with
    | some b => { storage := st, location := loc, result := Except.ok b }
    | none => { storage := st, location := loc, result := Except.error "invalid json" }

/-- The remote endpoints exported by src/unnamed/part_004: every exported
function builds a request and ends with `return handleResponse(response)`
(the two connect functions additionally navigate on success, after the same
handleResponse call). -/
inductive Endpoint where
  | register
  | login
  | googleAuthUrl
  | microsoftAuthUrl
  | applicationsGetAll
  | applicationsAdd
  | applicationsUpdate
  | applicationsDelete
  | getProfile
  | updateProfile
  | emailAccountsGetAll
  | connectGmail
  | connectMicrosoft
  | syncAccount
  | syncStatus
  | disconnectAccount
  | healthCheck
deriving DecidableEq

/-- The request path built by each api.js function (record ids and query
values elided). -/
def requestPath : Endpoint → String
  | Endpoint.register => "/auth/register"
  | Endpoint.login => "/auth/login"
  | Endpoint.googleAuthUrl => "/auth/google"
  | Endpoint.microsoftAuthUrl => "/auth/microsoft"
  | Endpoint.applicationsGetAll => "/applications"
  | Endpoint.applicationsAdd => "/applications"
  | Endpoint.applicationsUpdate => "/applications"
  | Endpoint.applicationsDelete => "/applications"
  | Endpoint.getProfile => "/accounts"
  | Endpoint.updateProfile => "/accounts"
  | Endpoint.emailAccountsGetAll => "/gmail/accounts"
  | Endpoint.connectGmail => "/gmail/connect"
  | Endpoint.connectMicrosoft => "/gmail/connect"
  | Endpoint.syncAccount => "/gmail/sync"
  | Endpoint.syncStatus => "/gmail/status"
  | Endpoint.disconnectAccount => "/gmail/accounts"
  | Endpoint.healthCheck => "/health"

/-- A remote call through the wrapper: whichever endpoint was requested, the
received response is funnelled through handleResponse, so the endpoint only
determines the request, never the response handling. -/
def callApi (_ : Endpoint) (r : Response) (st : Storage) (loc : String) : ApiResult :=
  handleResponse r st loc

/-! ## Application collection cache (src/unnamed/part_000 lines 111-133) -/

/-- The object handed to handleAddApplication: the spread `...appData` can
carry its own id (as fetched records re-added by the applications page do),
which then overrides the `Date.now()` placeholder; the four form fields are
always present at the call sites. -/
structure AddInput where
  id : Option Nat
  company : String
  role : String
  status : String
  source : String
deriving DecidableEq

/-- The record built by handleAddApplication:
`{ id: Date.now(), ...appData, created_at: now, updated_at: now }` - the
spread overrides the placeholder id when appData carries one, and the two
timestamps are written after the spread, so they are always the current
instant. -/
def mkNewApp (appData : AddInput) (now : Nat) : ApplicationRecord :=
  { id := appData.id.getD now, company := appData.company, role := appData.role,
    status := appData.status, source := appData.source,
    created_at := now, updated_at := now }

/-- handleAddApplication (src/unnamed/part_000 lines 111-119): prepends the
new record to the list, with no duplicate check. -/
def handleAddApplication (appData : AddInput) (now : Nat)
    (apps : List ApplicationRecord) : List ApplicationRecord :=
  mkNewApp appData now :: apps

/-- The partial object merged by handleUpdateApplication: the form submits
company, role, status and source; absent fields leave the record field
unchanged (JavaScript object spread). The form never carries an id. -/
structure AppPatch where
  company : Option String
  role : Option String
  status : Option String
  source : Option String
deriving DecidableEq

/-- `{ ...app, ...appData, updated_at: now }`: patch fields override, the
id and created_at are kept, updated_at is bumped to the current instant. -/
def mergePatch (a : ApplicationRecord) (p : AppPatch) (now : Nat) : ApplicationRecord :=
  { id := a.id, company := p.company.getD a.company, role := p.role.getD a.role,
    status := p.status.getD a.status, source := p.source.getD a.source,
    created_at := a.created_at, updated_at := now }

/-- handleUpdateApplication (src/unnamed/part_000 lines 121-129): maps over
the list, merging the patch into the record whose id matches and leaving
every other record untouched. -/
def handleUpdateApplication (i : Nat) (p : AppPatch) (now : Nat)
    (apps : List ApplicationRecord) : List ApplicationRecord :=
  apps.map (fun app => if app.id == i then mergePatch app p now else app)

/-- handleDeleteApplication (src/unnamed/part_000 lines 131-133): filters
out the record with the given id. -/
def handleDeleteApplication (i : Nat) (apps : List ApplicationRecord) :
    List ApplicationRecord :=
  apps.filter (fun app => !(app.id == i))

/-- One mutation of the application cache, as dispatched by the App
component: add (also used by the applications page to feed fetched records
back into the cache), update, or remove. -/
inductive CacheOp where
  | add : AddInput → Nat → CacheOp
  | update : Nat → AppPatch → Nat → CacheOp
  | remove : Nat → CacheOp
deriving DecidableEq

/-- Dispatch of one cache operation to the corresponding App handler. -/
def applyOp (apps : List ApplicationRecord) : CacheOp → List ApplicationRecord
  | CacheOp.add i n => handleAddApplication i n apps
  | CacheOp.update i p n => handleUpdateApplication i p n apps
  | CacheOp.remove i => handleDeleteApplication i apps

/-- A sequence of cache operations applied in order. -/
def applyOps (apps : List ApplicationRecord) (ops : List CacheOp) : List ApplicationRecord :=
  ops.foldl applyOp apps

/-- The ids of the records in the cache, in visible order. -/
def cacheIds (apps : List ApplicationRecord) : List Nat :=
  apps.map (fun a => a.id)

/-- The ids handed to the cache by the add operations of a sequence, in the
order the adds happen. -/
def addedIds : List CacheOp → List Nat
  | [] => []
  | CacheOp.add i n :: rest => i.id.getD n :: addedIds rest
  | CacheOp.update _ _ _ :: rest => addedIds rest
  | CacheOp.remove _ :: rest => addedIds rest

/-! ## Page-level update flow (src/Frontend/src/pages/applications.js lines 98-108) -/

/-- The cache as observable at the two relevant instants of the page-level
update handler, plus the surfaced error: `during` is the cache while the
awaited remote PATCH is outstanding, `after` is the cache once the handler
finished. -/
structure UpdateRun where
  during : List ApplicationRecord
  after : List ApplicationRecord
  error : Option String
deriving DecidableEq

/-- Shallow embedding of handleUpdateApplication on the applications page
(src/Frontend/src/pages/applications.js lines 98-108): the handler first
awaits `applicationsAPI.update(id, appData)` and only then calls
`onUpdateApplication(id, appData)`, so the cache is unchanged while the
remote call is in flight; on a remote failure the catch sets the error
message and the local merge never happens. `remote` is the settled remote
promise. -/
def pageHandleUpdateApplication (remote : Except String Unit)
    (apps : List ApplicationRecord) (i : Nat) (p : AppPatch) (now : Nat) : UpdateRun :=
  match remote with
  | Except.ok _ =>
      { during := apps, after := handleUpdateApplication i p now apps, error := none }
  | Except.error msg =>
      { during := apps, after := apps,
        error := some ("Failed to update application: " ++ msg) }

/-! ## Filtering and search (src/Frontend/src/pages/applications.js lines 32-37) -/

/-- Character-list prefix test (the head of JavaScript String.includes). -/
def isPrefixList : List Char → List Char → Bool
  | [], _ => true
  | _ :: _, [] => false
  | a :: as, b :: bs => a == b && isPrefixList as bs

/-- Substring search over character lists: the needle occurs at some
position of the haystack. -/
def listContains (nee : List Char) : List Char → Bool
  | [] => isPrefixList nee []
  | c :: t => isPrefixList nee (c :: t) || listContains nee t

/-- JavaScript `s.includes(sub)`. -/
def jsIncludes (s sub : String) : Bool :=
  listContains sub.toList s.toList

/-- JavaScript String.toLowerCase, modelled as the character-wise ASCII
lowercase map. -/
def jsToLower (s : String) : String :=
  String.mk (s.data.map Char.toLower)

/-- The search predicate of the applications view: the lowercased company or
the lowercased role contains the lowercased search term. -/
def matchesSearch (term : String) (app : ApplicationRecord) : Bool :=
  jsIncludes (jsToLower app.company) (jsToLower term) ||
    jsIncludes (jsToLower app.role) (jsToLower term)

/-- The status predicate of the applications view:
`filter === 'all' || app.status === filter`. -/
def matchesFilter (fil : String) (app : ApplicationRecord) : Bool :=
  fil == "all" || app.status == fil

/-- filteredApplications (src/Frontend/src/pages/applications.js lines
32-37): Array.filter with the conjunction of the two predicates; the source
array is left untouched (Array.filter allocates a new array), which the
purely functional embedding reflects. -/
def filteredApplications (apps : List ApplicationRecord) (fil term : String) :
    List ApplicationRecord :=
  apps.filter (fun app => matchesFilter fil app && matchesSearch term app)

/-- The subset of the cache whose status equals the given value - the set
the specification text describes, for comparison with the code. -/
def statusSubset (apps : List ApplicationRecord) (s : String) : List ApplicationRecord :=
  apps.filter (fun a => a.status == s)

/-- The subset of the cache whose company or role contains the term
case-insensitively - the set the specification text describes, for
comparison with the code. -/
def searchSubset (apps : List ApplicationRecord) (t : String) : List ApplicationRecord :=
  apps.filter (fun a => matchesSearch t a)

/-! ## URL-parameter effect (src/unnamed/part_000 lines 51-63) -/

/-- Shallow embedding of the URL-parameter useEffect of the App component:
when the query carries truthy `token` and `user_id` parameters the page is
switched to oauth-callback regardless of authentication; otherwise, when the
path is /profile or the query carries `success=email_connected` or a truthy
`error`, and the user is authenticated, the page is switched to profile and
the URL is rewritten to a bare /profile by history.replaceState; otherwise
nothing changes. Returns the resulting page and URL. -/
def urlParamsEffect (u : Url) (isAuthenticated : Bool) (page : String) : String × Url :=
  if truthy u.token && truthy u.user_id then
    ("oauth-callback", u)
  else if u.pathname == "/profile" || u.success == some "email_connected" || truthy u.error then
    if isAuthenticated then ("profile", stripParams "/profile") else (page, u)
  else
    (page, u)

/-! ## OAuth callback (src/unnamed/part_001 lines 7-40) -/

/-- Outcome of the OAuthCallback mount effect: the storage after the effect,
the identity handed to onLogin (none when login was not called), the URL
after the effect, and the component error state. -/
structure OAuthOutcome where
  storage : Storage
  loginCalled : Option Identity
  url : Url
  error : Option String

/-- Shallow embedding of the OAuthCallback useEffect: with truthy `token`
and `user_id` parameters it persists the token, fetches the profile for the
user id, and on success persists the serialized profile, calls onLogin with
the id/name/email of the fetched profile, and rewrites the URL to a bare /;
on a failed fetch it keeps the persisted token and surfaces an error; with
the parameters absent it only surfaces an error and touches nothing.
`fetchProfile` stands for userAPI.getProfile, `stringify` for
JSON.stringify. -/
def oauthCallbackEffect (fetchProfile : String → Except String Identity)
    (stringify : Identity → String) (u : Url) (st : Storage) : OAuthOutcome :=
  if truthy u.token && truthy u.user_id then
    let t := u.token.getD ""
    let uid := u.user_id.getD ""
    match fetchProfile uid with
    | Except.ok userData =>
        { storage := { auth_token := some t, user := some (stringify userData) },
          loginCalled := some { id := userData.id, name := userData.name, email := userData.email },
          url := stripParams "/",
          error := none }
    | Except.error _ =>
        { storage := { auth_token := some t, user := st.user },
          loginCalled := none, url := u,
          error := some "Failed to load user profile" }
  else
    { storage := st, loginCalled := none, url := u,
      error := some "Missing authentication token" }

/-! ## Logout (src/unnamed/part_000 lines 95-105) -/

/-- handleLogout: resets user, authentication flag, page, applications and
error, and removes both localStorage keys. -/
def handleLogout (_s : AppState) (_st : Storage) : AppState × Storage :=
  ({ currentPage := "login", isAuthenticated := false, user := none,
     applications := [], error := "" },
   { auth_token := none, user := none })

/-! ## Render gating (src/unnamed/part_000 lines 135-182) -/

/-- renderPage: the page switch of the App component; unknown selections
fall through to the dashboard. -/
def renderPage (page : String) : String :=
  match page with
  | "dashboard" => "dashboard"
  | "applications" => "applications"
  | "profile" => "profile"
  | "oauth-callback" => "oauth-callback"
  | _ => "dashboard"

/-- The view the App component renders: when not authenticated and the page
is not oauth-callback, the login view when the selection is login and the
register view otherwise; in every other case the page switch decides. -/
def renderApp (isAuthenticated : Bool) (page : String) : String :=
  if !isAuthenticated && !(page == "oauth-callback") then
    if page == "login" then "login" else "register"
  else
    renderPage page

/-! ## Concrete inputs used by witnesses and counterexamples -/

/-- A parse function standing for JSON.parse at a witness input: only the
string "good" parses. -/
def cParse : String → Option Identity :=
  fun s => if s == "good" then some { id := "1", name := "N", email := "n@x.com" } else none

/-- A storage state holding a token and a malformed persisted identity. -/
def cBadStorage : Storage := { auth_token := some "tok", user := some "bad" }

/-- Empty storage. -/
def cEmptyStorage : Storage := { auth_token := none, user := none }

/-- Storage with both keys present. -/
def cFullStorage : Storage := { auth_token := some "tok", user := some "good" }

/-- The bare default URL. -/
def cHome : Url := stripParams "/"

/-- A 401 response with a structured error body. -/
def cResponse401 : Response := { status := 401, body := some { error := some "Unauthorized" } }

/-- A concrete application record. -/
def cApp : ApplicationRecord :=
  { id := 1, company := "Acme", role := "Engineer", status := "Applied",
    source := "manual", created_at := 0, updated_at := 0 }

/-- An add input carrying its own id, as a fetched record re-added through
the cache does. -/
def cAdd1 : AddInput :=
  { id := some 1, company := "Acme", role := "Engineer", status := "Applied", source := "manual" }

/-- An add input without an id, as a freshly created optimistic record. -/
def cAdd2 : AddInput :=
  { id := none, company := "Beta", role := "Analyst", status := "Applied", source := "LinkedIn" }

/-- A patch changing only the status. -/
def cPatch : AppPatch :=
  { company := none, role := none, status := some "Interview", source := none }

/-- A sequence of cache operations whose added ids are fresh. -/
def cOps : List CacheOp :=
  [CacheOp.add cAdd1 10, CacheOp.add cAdd2 20, CacheOp.update 1 cPatch 30, CacheOp.remove 20]

/-- A profile fetch that answers every id with a fixed name and email. -/
def cFetch : String → Except String Identity :=
  fun uid => Except.ok { id := uid, name := "Jane", email := "jane@x.com" }

/-- A stand-in for JSON.stringify at witness inputs. -/
def cStringify : Identity → String :=
  fun u => u.id ++ u.name ++ u.email

/-- A URL as produced by the identity-provider redirect. -/
def cOAuthUrl : Url :=
  { pathname := "/", token := some "tok123", user_id := some "42", success := none, error := none }

/-- A URL as produced by the email-account connection redirect. -/
def cEmailUrl : Url :=
  { pathname := "/", token := none, user_id := none,
    success := some "email_connected", error := none }

/-! ## Theorems -/

/-- Claim C9: handleLogout always clears the identity, the token (state and
both persisted localStorage keys) and the cached application records, lands
on the login page unauthenticated, and is idempotent: a second call leaves
exactly the state of the first. -/
theorem logout_clears_idempotent (s : AppState) (st : Storage) :
    (handleLogout s st).1.isAuthenticated = false ∧
    (handleLogout s st).1.user = none ∧
    (handleLogout s st).1.applications = [] ∧
    (handleLogout s st).1.currentPage = "login" ∧
    (handleLogout s st).2.auth_token = none ∧
    (handleLogout s st).2.user = none ∧
    handleLogout (handleLogout s st).1 (handleLogout s st).2 = handleLogout s st := by
  refine ⟨rfl, rfl, rfl, rfl, rfl, rfl, rfl⟩

/-- Claim C8: while unauthenticated, every page selection other than
oauth-callback renders either the login or the register view, and the
oauth-callback selection is allowed to render its own view before
authentication completes. -/
theorem unauth_forces_login_register (page : String) (h : page ≠ "oauth-callback") :
    (renderApp false page = "login" ∨ renderApp false page = "register") ∧
    renderApp false "oauth-callback" = "oauth-callback" := by
  refine ⟨?_, by decide⟩
  unfold renderApp
  have hb : (page == "oauth-callback") = false := by simpa using h
  rw [hb]
  by_cases hl : page = "login"
  · left; simp [hl]
  · right; simp [hl]

theorem unauth_forces_witness :
    (renderApp false "dashboard" = "login" ∨ renderApp false "dashboard" = "register") ∧
    renderApp false "oauth-callback" = "oauth-callback" :=
  unauth_forces_login_register "dashboard" (by decide)

/-- Claim C2: any remote call through the api.js wrapper that receives a 401
response clears both persisted localStorage keys (the same clearing as
logout) and forces window.location to the login page, whatever the endpoint
was; the call itself settles as a thrown error. -/
theorem api_401_clears_session (e : Endpoint) (r : Response) (st : Storage)
    (loc : String) (h : r.status = 401) :
    (callApi e r st loc).storage.auth_token = none ∧
    (callApi e r st loc).storage.user = none ∧
    (callApi e r st loc).location = "/login" ∧
    ∃ msg, (callApi e r st loc).result = Except.error msg := by
  have hok : r.ok = false := by simp [Response.ok, h]
  unfold callApi handleResponse
  rw [hok, h]
  cases hb : r.body with
  | none => exact ⟨rfl, rfl, rfl, "invalid json", rfl⟩
  | some b => exact ⟨rfl, rfl, rfl, jsOr b.error "Something went wrong", rfl⟩

theorem api_401_witness :
    (callApi Endpoint.applicationsGetAll cResponse401 cFullStorage "/applications").storage.auth_token = none ∧
    (callApi Endpoint.applicationsGetAll cResponse401 cFullStorage "/applications").storage.user = none ∧
    (callApi Endpoint.applicationsGetAll cResponse401 cFullStorage "/applications").location = "/login" ∧
    ∃ msg, (callApi Endpoint.applicationsGetAll cResponse401 cFullStorage "/applications").result = Except.error msg :=
  api_401_clears_session Endpoint.applicationsGetAll cResponse401 cFullStorage "/applications" rfl

/-- Records whose id differs from the updated id are mapped to themselves,
so an update over a list with no matching id is the identity. -/
theorem update_no_match (i : Nat) (p : AppPatch) (now : Nat) :
    ∀ apps : List ApplicationRecord, (∀ a ∈ apps, a.id ≠ i) →
      handleUpdateApplication i p now apps = apps := by
  intro apps
  induction apps with
  | nil => intro _; rfl
  | cons a t ih =>
      intro h
      have ha : a.id ≠ i := h a (List.mem_cons_self a t)
      have ht := ih (fun x hx => h x (List.mem_cons_of_mem a hx))
      simp only [handleUpdateApplication, List.map_cons] at *
      rw [if_neg (by simpa using ha), ht]

/-- Claim C10: handleUpdateApplication preserves the length of the list,
leaves every record whose id differs from the given id completely unchanged
in its position (hence preserves relative order), and leaves the whole list
unchanged when no record matches. -/
theorem update_frame_spec (apps : List ApplicationRecord) (i : Nat) (p : AppPatch) (now : Nat) :
    (handleUpdateApplication i p now apps).length = apps.length ∧
    (∀ (k : Nat) (a : ApplicationRecord), apps[k]? = some a → a.id ≠ i →
      (handleUpdateApplication i p now apps)[k]? = some a) ∧
    ((∀ a ∈ apps, a.id ≠ i) → handleUpdateApplication i p now apps = apps) := by
  refine ⟨by simp [handleUpdateApplication], ?_, update_no_match i p now apps⟩
  intro k a hk hne
  simp only [handleUpdateApplication, List.getElem?_map, hk, Option.map_some']
  rw [if_neg (by simpa using hne)]

theorem update_frame_witness :
    (handleUpdateApplication 2 cPatch 5 [cApp]).length = [cApp].length ∧
    (handleUpdateApplication 2 cPatch 5 [cApp])[0]? = some cApp ∧
    handleUpdateApplication 2 cPatch 5 [cApp] = [cApp] := by
  have h := update_frame_spec [cApp] 2 cPatch 5
  exact ⟨h.1, h.2.1 0 cApp (by decide) (by decide), h.2.2 (by decide)⟩

/-- Claim C1: the restore effect yields an authenticated state holding the
persisted identity exactly when the persisted token and identity are both
present (truthy) and the identity parses; with the token absent the state
stays unauthenticated and the storage (including any stale identity record)
is untouched; a malformed persisted identity makes the effect clear both
storage keys and stay unauthenticated. The effect is a total function - the
source wraps JSON.parse in try/catch, so it never throws. -/
theorem restore_session_spec (parse : String → Option Identity) (st : Storage) (u : Url) :
    ((restore parse st u).state.isAuthenticated = true ↔
      ((truthy st.auth_token && truthy st.user) = true ∧
        (parse (st.user.getD "")).isSome = true)) ∧
    ((restore parse st u).state.isAuthenticated = true →
      (restore parse st u).state.user = parse (st.user.getD "")) ∧
    (truthy st.auth_token = false →
      (restore parse st u).state.isAuthenticated = false ∧
      (restore parse st u).storage = st) ∧
    ((truthy st.auth_token && truthy st.user) = true →
      parse (st.user.getD "") = none →
      (restore parse st u).storage.auth_token = none ∧
      (restore parse st u).storage.user = none ∧
      (restore parse st u).state.isAuthenticated = false) := by
  unfold restore
  cases hb : (truthy st.auth_token && truthy st.user) with
  | false =>
      rw [if_neg Bool.false_ne_true]
      refine ⟨?_, ?_, ?_, ?_⟩
      · constructor
        · intro h
          exact absurd h Bool.false_ne_true
        · rintro ⟨hc, _⟩
          exact absurd hc Bool.false_ne_true
      · intro h
        exact absurd h Bool.false_ne_true
      · intro _
        exact ⟨rfl, rfl⟩
      · intro h
        exact absurd h Bool.false_ne_true
  | true =>
      rw [if_pos rfl]
      cases hp : parse (st.user.getD "") with
      | none =>
          refine ⟨?_, ?_, ?_, ?_⟩
          · constructor
            · intro h
              exact absurd h Bool.false_ne_true
            · rintro ⟨_, hs⟩
              exact absurd hs Bool.false_ne_true
          · intro h
            exact absurd h Bool.false_ne_true
          · intro hf
            rw [Bool.and_eq_true] at hb
            rw [hb.1] at hf
            exact Bool.noConfusion hf
          · intro _ _
            exact ⟨rfl, rfl, rfl⟩
      | some userData =>
          refine ⟨?_, ?_, ?_, ?_⟩
          · constructor
            · intro _
              exact ⟨rfl, rfl⟩
            · intro _
              rfl
          · intro _
            rfl
          · intro hf
            rw [Bool.and_eq_true] at hb
            rw [hb.1] at hf
            exact Bool.noConfusion hf
          · intro _ hnone
            exact Option.noConfusion hnone

theorem restore_session_witness :
    (restore cParse cBadStorage cHome).storage.auth_token = none ∧
    (restore cParse cBadStorage cHome).storage.user = none ∧
    (restore cParse cBadStorage cHome).state.isAuthenticated = false :=
  (restore_session_spec cParse cBadStorage cHome).2.2.2 (by decide) (by decide)

/-- The empty search term matches every record: the lowercased empty string
is empty and the empty character list occurs in every haystack. -/
theorem matchesSearch_empty (a : ApplicationRecord) : matchesSearch "" a = true := by
  have hnil : ∀ hay : List Char, listContains [] hay = true := by
    intro hay
    cases hay with
    | nil => rfl
    | cons c t => simp [listContains, isPrefixList]
  simp [matchesSearch, jsIncludes, jsToLower, hnil]

/-- Claim C5: the applications-view filter is characterized pointwise: with
a concrete status value (not the all sentinel) a record is kept exactly when
it belongs to both the status-equality subset and the case-insensitive
search subset (the intersection); with the all sentinel the result is
exactly the search subset; with an empty search term the result is exactly
the status subset. The embedding is a pure function, mirroring Array.filter,
which allocates and never mutates the cache. -/
theorem filter_pure_spec (apps : List ApplicationRecord) (s t : String) (hs : s ≠ "all") :
    (∀ a : ApplicationRecord,
      a ∈ filteredApplications apps s t ↔
        (a ∈ statusSubset apps s ∧ a ∈ searchSubset apps t)) ∧
    filteredApplications apps "all" t = searchSubset apps t ∧
    filteredApplications apps s "" = statusSubset apps s := by
  refine ⟨?_, ?_, ?_⟩
  · intro a
    simp only [filteredApplications, statusSubset, searchSubset, List.mem_filter,
      matchesFilter, Bool.and_eq_true, Bool.or_eq_true, beq_iff_eq]
    constructor
    · rintro ⟨ha, hor, hsearch⟩
      rcases hor with h | h
      · exact absurd h hs
      · exact ⟨⟨ha, h⟩, ha, hsearch⟩
    · rintro ⟨⟨ha, hstat⟩, _, hsearch⟩
      exact ⟨ha, Or.inr hstat, hsearch⟩
  · unfold filteredApplications searchSubset
    apply List.filter_congr
    intro a _
    simp [matchesFilter]
  · unfold filteredApplications statusSubset
    apply List.filter_congr
    intro a _
    simp [matchesFilter, matchesSearch_empty a, hs]

theorem filter_pure_witness :
    (cApp ∈ filteredApplications [cApp] "Applied" "acme" ↔
      (cApp ∈ statusSubset [cApp] "Applied" ∧ cApp ∈ searchSubset [cApp] "acme")) ∧
    filteredApplications [cApp] "Applied" "" = statusSubset [cApp] "Applied" :=
  ⟨(filter_pure_spec [cApp] "Applied" "acme" (by decide)).1 cApp,
   (filter_pure_spec [cApp] "Applied" "" (by decide)).2.2⟩

/-- Claim C7: with both token parameters not truthy and the URL carrying
success=email_connected or a truthy error parameter, the URL effect
navigates to the profile page only when already authenticated, rewriting
the URL by history replacement to a bare /profile whose query string no
longer carries the success parameter; re-running the effect on the rewritten
URL changes nothing (the result is a fixed point, so the callback result is
not re-processed); when unauthenticated the effect changes nothing. -/
theorem email_link_result_spec (u : Url) (page : String)
    (hnot : (truthy u.token && truthy u.user_id) = false)
    (hres : u.success = some "email_connected" ∨ truthy u.error = true) :
    urlParamsEffect u true page = ("profile", stripParams "/profile") ∧
    (stripParams "/profile").success = none ∧
    urlParamsEffect (stripParams "/profile") true "profile" = ("profile", stripParams "/profile") ∧
    urlParamsEffect u false page = (page, u) := by
  have hcond : (u.pathname == "/profile" || u.success == some "email_connected" || truthy u.error) = true := by
    rcases hres with h | h
    · simp [h]
    · simp [h]
  refine ⟨?_, rfl, by decide, ?_⟩
  · unfold urlParamsEffect
    rw [hnot, hcond]
    simp
  · unfold urlParamsEffect
    rw [hnot, hcond]
    simp

theorem email_link_result_witness :
    urlParamsEffect cEmailUrl true "dashboard" = ("profile", stripParams "/profile") ∧
    (stripParams "/profile").success = none ∧
    urlParamsEffect (stripParams "/profile") true "profile" = ("profile", stripParams "/profile") ∧
    urlParamsEffect cEmailUrl false "dashboard" = ("dashboard", cEmailUrl) :=
  email_link_result_spec cEmailUrl "dashboard" (by decide) (Or.inl rfl)

/-- Claim C6: with truthy token and user_id query parameters the URL effect
switches to the oauth-callback view whatever the authentication state; the
callback effect persists the token, fetches the profile for the user_id
parameter and, when the fetch succeeds with the profile of that user, calls
login with an identity whose id is that user_id and rewrites the URL to a
bare / with the query string cleared; on the stripped URL neither effect
re-triggers the exchange: the page selection is left alone, no login is
issued and the storage is untouched. -/
theorem oauth_resumption_spec (fetchProfile : String → Except String Identity)
    (stringify : Identity → String) (u : Url) (st : Storage) (isAuth : Bool)
    (page : String) (t uid : String) (ud : Identity)
    (ht : u.token = some t) (ht2 : t ≠ "")
    (hu : u.user_id = some uid) (hu2 : uid ≠ "")
    (hf : fetchProfile uid = Except.ok ud) (hid : ud.id = uid) :
    (urlParamsEffect u isAuth page).1 = "oauth-callback" ∧
    (oauthCallbackEffect fetchProfile stringify u st).storage.auth_token = some t ∧
    (oauthCallbackEffect fetchProfile stringify u st).storage.user = some (stringify ud) ∧
    (oauthCallbackEffect fetchProfile stringify u st).loginCalled =
      some { id := uid, name := ud.name, email := ud.email } ∧
    (oauthCallbackEffect fetchProfile stringify u st).url = stripParams "/" ∧
    (urlParamsEffect (stripParams "/") isAuth page).1 = page ∧
    (oauthCallbackEffect fetchProfile stringify (stripParams "/") st).loginCalled = none ∧
    (oauthCallbackEffect fetchProfile stringify (stripParams "/") st).storage = st := by
  have htt : truthy u.token = true := by simp [ht, truthy, ht2]
  have huu : truthy u.user_id = true := by simp [hu, truthy, hu2]
  have hgt : u.token.getD "" = t := by simp [ht]
  have hgu : u.user_id.getD "" = uid := by simp [hu]
  refine ⟨?_, ?_, ?_, ?_, ?_, ?_, ?_, ?_⟩
  · unfold urlParamsEffect
    rw [htt, huu]
    rfl
  · unfold oauthCallbackEffect
    rw [htt, huu]
    simp [hgt, hgu, hf]
  · unfold oauthCallbackEffect
    rw [htt, huu]
    simp [hgt, hgu, hf]
  · unfold oauthCallbackEffect
    rw [htt, huu]
    simp [hgt, hgu, hf, hid]
  · unfold oauthCallbackEffect
    rw [htt, huu]
    simp [hgt, hgu, hf]
  · unfold urlParamsEffect
    simp [stripParams, truthy]
  · unfold oauthCallbackEffect
    simp [stripParams, truthy]
  · unfold oauthCallbackEffect
    simp [stripParams, truthy]

theorem oauth_resumption_witness :
    (urlParamsEffect cOAuthUrl false "dashboard").1 = "oauth-callback" ∧
    (oauthCallbackEffect cFetch cStringify cOAuthUrl cEmptyStorage).storage.auth_token = some "tok123" ∧
    (oauthCallbackEffect cFetch cStringify cOAuthUrl cEmptyStorage).storage.user =
      some (cStringify { id := "42", name := "Jane", email := "jane@x.com" }) ∧
    (oauthCallbackEffect cFetch cStringify cOAuthUrl cEmptyStorage).loginCalled =
      some { id := "42", name := "Jane", email := "jane@x.com" } ∧
    (oauthCallbackEffect cFetch cStringify cOAuthUrl cEmptyStorage).url = stripParams "/" ∧
    (urlParamsEffect (stripParams "/") false "dashboard").1 = "dashboard" ∧
    (oauthCallbackEffect cFetch cStringify (stripParams "/") cEmptyStorage).loginCalled = none ∧
    (oauthCallbackEffect cFetch cStringify (stripParams "/") cEmptyStorage).storage = cEmptyStorage :=
  oauth_resumption_spec cFetch cStringify cOAuthUrl cEmptyStorage false "dashboard"
    "tok123" "42" { id := "42", name := "Jane", email := "jane@x.com" }
    rfl (by decide) rfl (by decide) rfl rfl

/-- An update never changes the id column of the cache: the merge keeps the
id of the matched record and every other record is returned as it is. -/
theorem cacheIds_update (i : Nat) (p : AppPatch) (now : Nat) :
    ∀ apps : List ApplicationRecord,
      cacheIds (handleUpdateApplication i p now apps) = cacheIds apps := by
  intro apps
  induction apps with
  | nil => rfl
  | cons a t ih =>
      simp only [handleUpdateApplication, cacheIds, List.map_cons] at *
      rw [ih]
      by_cases h : a.id == i
      · rw [if_pos h]
        rfl
      · rw [if_neg h]

/-- A delete only removes records, so the id column of the result is a
sublist of the previous id column. -/
theorem cacheIds_delete_sublist (i : Nat) (apps : List ApplicationRecord) :
    List.Sublist (cacheIds (handleDeleteApplication i apps)) (cacheIds apps) :=
  List.Sublist.map _ (List.filter_sublist apps)

/-- Recency order of the cache: after any operation sequence, the id column
is a sublist of the reversed add order followed by the initial id column, so
among surviving records a more recently added record is always listed before
an older one and before every pre-existing record. -/
theorem applyOps_ids_sublist :
    ∀ (ops : List CacheOp) (apps : List ApplicationRecord),
      List.Sublist (cacheIds (applyOps apps ops)) ((addedIds ops).reverse ++ cacheIds apps) := by
  intro ops
  induction ops with
  | nil =>
      intro apps
      simp [applyOps, addedIds]
  | cons op rest ih =>
      intro apps
      cases op with
      | add i n =>
          have h := ih (mkNewApp i n :: apps)
          have hids : cacheIds (mkNewApp i n :: apps) = i.id.getD n :: cacheIds apps := rfl
          rw [hids] at h
          have hrw : addedIds (CacheOp.add i n :: rest) = i.id.getD n :: addedIds rest := rfl
          show List.Sublist (cacheIds (applyOps (mkNewApp i n :: apps) rest))
            ((addedIds (CacheOp.add i n :: rest)).reverse ++ cacheIds apps)
          rw [hrw, List.reverse_cons, List.append_assoc, List.singleton_append]
          exact h
      | update i p n =>
          have h := ih (handleUpdateApplication i p n apps)
          rw [cacheIds_update] at h
          exact h
      | remove i =>
          have h := ih (handleDeleteApplication i apps)
          have hmono := List.Sublist.append_left (cacheIds_delete_sublist i apps) ((addedIds rest).reverse)
          exact h.trans hmono

/-- Uniqueness of ids: when the initial id column has no duplicate, the ids
handed in by the add operations are pairwise distinct and none of them is
already present, the id column stays duplicate-free through the whole
operation sequence. -/
theorem applyOps_ids_nodup :
    ∀ (ops : List CacheOp) (apps : List ApplicationRecord),
      (cacheIds apps).Nodup → (addedIds ops).Nodup →
      (∀ x ∈ addedIds ops, x ∉ cacheIds apps) →
      (cacheIds (applyOps apps ops)).Nodup := by
  intro ops
  induction ops with
  | nil =>
      intro apps h1 _ _
      exact h1
  | cons op rest ih =>
      intro apps h1 h2 h3
      cases op with
      | add i n =>
          have hrw : addedIds (CacheOp.add i n :: rest) = i.id.getD n :: addedIds rest := rfl
          rw [hrw, List.nodup_cons] at h2
          have hx : i.id.getD n ∉ cacheIds apps :=
            h3 _ (by rw [hrw]; exact List.mem_cons_self _ _)
          have h1n : (cacheIds (mkNewApp i n :: apps)).Nodup := by
            show (i.id.getD n :: cacheIds apps).Nodup
            exact List.nodup_cons.mpr ⟨hx, h1⟩
          have h3n : ∀ x ∈ addedIds rest, x ∉ cacheIds (mkNewApp i n :: apps) := by
            intro x hxr
            show x ∉ i.id.getD n :: cacheIds apps
            rw [List.mem_cons]
            rintro (h | h)
            · exact h2.1 (h ▸ hxr)
            · exact h3 x (by rw [hrw]; exact List.mem_cons_of_mem _ hxr) h
          exact ih (mkNewApp i n :: apps) h1n h2.2 h3n
      | update i p n =>
          have h1n : (cacheIds (handleUpdateApplication i p n apps)).Nodup := by
            rw [cacheIds_update]
            exact h1
          have h3n : ∀ x ∈ addedIds rest, x ∉ cacheIds (handleUpdateApplication i p n apps) := by
            intro x hxr
            rw [cacheIds_update]
            exact h3 x hxr
          exact ih _ h1n h2 h3n
      | remove i =>
          have hsub := cacheIds_delete_sublist i apps
          have h1n : (cacheIds (handleDeleteApplication i apps)).Nodup := h1.sublist hsub
          have h3n : ∀ x ∈ addedIds rest, x ∉ cacheIds (handleDeleteApplication i apps) :=
            fun x hxr hmem => h3 x hxr (hsub.subset hmem)
          exact ih _ h1n h2 h3n

/-- Counterexample to claim C3 as stated: handleAddApplication prepends
unconditionally, with no reconciliation by id, so feeding the same fetched
record through add twice - exactly what loadApplications on the
applications page does on a second mount - leaves two records with the same
id in the cache. -/
theorem cache_dup_id_counterexample :
    ¬ ((cacheIds (applyOps [] [CacheOp.add cAdd1 10, CacheOp.add cAdd1 20])).Nodup) := by
  decide

/-- Claim C3, amended: the unconditional prepend admits duplicate ids when a
record whose id is already cached is re-added, so uniqueness only holds for
sequences whose added ids are pairwise distinct and fresh with respect to
the initial cache; under that hypothesis no two records ever share an id,
and the visible order lists records added later before records added
earlier and before pre-existing records, each add placing its record at the
head of the list. -/
theorem cache_nodup_amended (apps : List ApplicationRecord) (ops : List CacheOp)
    (h1 : (cacheIds apps).Nodup) (h2 : (addedIds ops).Nodup)
    (h3 : ∀ x ∈ addedIds ops, x ∉ cacheIds apps) :
    (cacheIds (applyOps apps ops)).Nodup ∧
    List.Sublist (cacheIds (applyOps apps ops)) ((addedIds ops).reverse ++ cacheIds apps) ∧
    (∀ (i : AddInput) (n : Nat), applyOp apps (CacheOp.add i n) = mkNewApp i n :: apps) :=
  ⟨applyOps_ids_nodup ops apps h1 h2 h3, applyOps_ids_sublist ops apps,
   fun _ _ => rfl⟩

theorem cache_nodup_witness :
    (cacheIds (applyOps [] cOps)).Nodup ∧
    List.Sublist (cacheIds (applyOps [] cOps)) ((addedIds cOps).reverse ++ cacheIds []) ∧
    (∀ (i : AddInput) (n : Nat), applyOp [] (CacheOp.add i n) = mkNewApp i n :: []) :=
  cache_nodup_amended [] cOps (by decide) (by decide) (by decide)

/-- Counterexample to claim C4 as stated: on the applications page the
handler awaits the remote PATCH before applying the local merge, so at this
concrete input the cache while the remote call is in flight, and the cache
after a remote failure, both still hold the unpatched record, although the
merged record (status Interview, updated_at bumped to 5) differs from it -
the local merge is neither immediate nor retained on failure. -/
theorem update_not_optimistic_counterexample :
    (pageHandleUpdateApplication (Except.error "network") [cApp] 1 cPatch 5).during = [cApp] ∧
    (pageHandleUpdateApplication (Except.error "network") [cApp] 1 cPatch 5).after = [cApp] ∧
    handleUpdateApplication 1 cPatch 5 [cApp] ≠ [cApp] := by
  refine ⟨rfl, rfl, ?_⟩
  decide

/-- Claim C4, amended: update(id, patch) issues the remote update and awaits
it before touching local state: while the remote call is outstanding the
cache is unchanged; on success the patch is merged into the matching record
with updated_at bumped to the current instant; on failure the cache is left
exactly as it was and an error message is surfaced - there is no rollback
because no local change ever precedes the remote result. -/
theorem update_sequencing_amended (apps : List ApplicationRecord) (i : Nat)
    (p : AppPatch) (now : Nat) (msg : String) :
    (pageHandleUpdateApplication (Except.ok ()) apps i p now).during = apps ∧
    (pageHandleUpdateApplication (Except.ok ()) apps i p now).after =
      handleUpdateApplication i p now apps ∧
    (pageHandleUpdateApplication (Except.ok ()) apps i p now).error = none ∧
    (pageHandleUpdateApplication (Except.error msg) apps i p now).during = apps ∧
    (pageHandleUpdateApplication (Except.error msg) apps i p now).after = apps ∧
    (pageHandleUpdateApplication (Except.error msg) apps i p now).error =
      some ("Failed to update application: " ++ msg) :=
  ⟨rfl, rfl, rfl, rfl, rfl, rfl⟩

end JobHunter
